import Mathlib

/-!
Shallow embedding of `lib/storage/glance.py` from blake-education/docker-registry:
a storage dispatcher (`GlanceStorage`) that routes registry paths to one of three
backends by namespace prefix, and a Glance-backed layer store
(`GlanceStorageLayers`) with tag-lifecycle synchronization handlers.

Python values needed for classification are modelled by `PyVal` (a string or a
non-string value); the external Glance image service is modelled as an explicit
state (`GlanceState`) with list/create/update/delete operations following the
contract the specification describes for it.
-/

set_option autoImplicit false

namespace Glance

/-- Python's `str.split(sep)` for a one-character separator, on the character
list: splits at every separator occurrence, keeping empty segments, and maps
the empty input to one empty segment. -/
def splitSeg (sep : Char) : List Char → List (List Char)
  | [] => [[]]
  | c :: rest =>
    let r := splitSeg sep rest
    if c = sep then [] :: r
    else
      match r with
      | s :: ss => (c :: s) :: ss
      | [] => [[c]]

/-- `path.split('/')` as the source calls it. -/
def pySplitSlash (s : String) : List String :=
  (splitSeg '/' s.data).map String.mk

/-- Python's `s.startswith(pre)`. -/
def pyStartsWith (s pre : String) : Bool :=
  pre.data.isPrefixOf s.data

/-- A Python value as far as the dispatcher cares: a string or anything else. -/
inductive PyVal where
  | str (s : String)
  | nonstr
  deriving DecidableEq, Repr

/-- Keyword arguments of a Python call: an association list from names to values. -/
abbrev Kwargs := List (String × PyVal)

/-- First value bound to key `k`, as Python dict lookup (keys are unique in a dict;
we read the first binding). -/
def kwLookup (kw : Kwargs) (k : String) : Option PyVal :=
  match kw with
  | [] => none
  | (k', v) :: rest => if k' = k then some v else kwLookup rest k

/-- Modelled from the spec: the base-storage collaborator (class `Storage` in
`lib/storage/__init__.py`, not under `src/`) owns the fixed image-namespace
constant, literally `images`. -/
def Storage.images : String := "images"

/-- Modelled from the spec: the base-storage collaborator owns the fixed
repository-namespace constant, literally `repositories`. -/
def Storage.repositories : String := "repositories"

/-- The three backends a call can be routed to. -/
inductive StoreKind where
  | layers
  | tags
  | base
  deriving DecidableEq, Repr

/-- A Python attribute on a backend, as far as the dispatcher inspects it:
whether it is truthy (`not attr` is False) and whether it is callable. -/
structure Attr where
  truthy : Bool
  callable : Bool
  deriving DecidableEq, Repr

/-- The attribute surfaces of the three stores held by `GlanceStorage`
(`_storage_layers`, `_storage_tags`, `_storage_base`): `attrs k m = none`
models `hasattr(obj, m)` being false. -/
structure StoreEnv where
  attrs : StoreKind → String → Option Attr

/-- `GlanceStorage._resolve_class_path`, path-extraction part:
`path = ''`, overridden by `kwargs['path']` when present, else by `args[0]`
when it is a string. -/
def resolvePathVal (args : List PyVal) (kwargs : Kwargs) : PyVal :=
  match kwLookup kwargs "path" with
  | some v => v
  | none =>
    match args with
    | PyVal.str s :: _ => PyVal.str s
    | _ => PyVal.str ""

/-- `GlanceStorage._resolve_class_path`, classification part: the
`startswith` cascade choosing `_storage_layers`, `_storage_tags` or
`_storage_base`. -/
def classify (path : String) : StoreKind :=
  if pyStartsWith path Storage.images then StoreKind.layers
  else if pyStartsWith path Storage.repositories then StoreKind.tags
  else StoreKind.base

/-- Classification of a `PyVal` path: `path.startswith` on a non-string raises
(`AttributeError`), modelled as `Except.error`. -/
def classifyVal (v : PyVal) : Except Unit StoreKind :=
  match v with
  | PyVal.str s => Except.ok (classify s)
  | PyVal.nonstr => Except.error ()

/-- The backend `_resolve_class_path` consults, when classification succeeds. -/
def routedStore (args : List PyVal) (kwargs : Kwargs) : Option StoreKind :=
  match classifyVal (resolvePathVal args kwargs) with
  | Except.ok k => some k
  | Except.error _ => none

/-- `GlanceStorage._resolve_class_path`: classify, then `hasattr`/`getattr`;
returns `none` when the chosen store lacks the method. -/
def resolveClassPath (env : StoreEnv) (methodName : String) (args : List PyVal)
    (kwargs : Kwargs) : Except Unit (Option (StoreKind × Attr)) :=
  match classifyVal (resolvePathVal args kwargs) with
  | Except.error e => Except.error e
  | Except.ok k =>
    Except.ok ((env.attrs k methodName).map (fun a => (k, a)))

/-- Outcome of one dispatched call through `GlanceStorage.__getattr__`. -/
inductive Dispatched where
  | crashed
  | dispatchError (methodName : String) (args : List PyVal) (kwargs : Kwargs)
  | invoked (target : StoreKind) (methodName : String) (args : List PyVal) (kwargs : Kwargs)
  | returnedAttr (target : StoreKind) (a : Attr)
  deriving DecidableEq, Repr

/-- The closure returned by `GlanceStorage.__getattr__`: resolve, raise
`ValueError` on `not attr`, then call the attribute (with the original
arguments) or return it. -/
def dispatcher (env : StoreEnv) (methodName : String) (args : List PyVal)
    (kwargs : Kwargs) : Dispatched :=
  match resolveClassPath env methodName args kwargs with
  | Except.error _ => Dispatched.crashed
  | Except.ok none => Dispatched.dispatchError methodName args kwargs
  | Except.ok (some (k, a)) =>
    if a.truthy = false then Dispatched.dispatchError methodName args kwargs
    else if a.callable then Dispatched.invoked k methodName args kwargs
    else Dispatched.returnedAttr k a

/-- The alternate backend chosen at construction for the repositories namespace. -/
inductive AltKind where
  | s3store
  | localstore
  deriving DecidableEq, Repr

/-- `GlanceStorage.__init__`, backend selection: `config.get('storage_alternate',
'local')`, `s3` → `S3Storage`, `local` → `LocalStorage`, else `ValueError`. -/
def selectAlternate (storageAlternate : Option String) : Except String AltKind :=
  let kind := storageAlternate.getD "local"
  if kind = "s3" then Except.ok AltKind.s3store
  else if kind = "local" then Except.ok AltKind.localstore
  else Except.error ("Not supported storage " ++ kind)

/-! ### The external Glance image service, modelled as explicit state -/

/-- A property map of an image record: an association list (no duplicate keys
are ever produced by the operations below). -/
abbrev Props := List (String × String)

/-- First value bound to a property name. -/
def propLookup (ps : Props) (k : String) : Option String :=
  match ps with
  | [] => none
  | (k', v) :: rest => if k' = k then some v else propLookup rest k

/-- Set (update-or-append) a property. -/
def propSet (ps : Props) (k v : String) : Props :=
  match ps with
  | [] => [(k, v)]
  | (k', v') :: rest =>
    if k' = k then (k, v) :: rest else (k', v') :: propSet rest k v

/-- Delete every binding of a property name. -/
def propErase (ps : Props) (k : String) : Props :=
  match ps with
  | [] => []
  | (k', v') :: rest =>
    if k' = k then propErase rest k else (k', v') :: propErase rest k

/-- Merge semantics of a non-purging update: entries of `upd` override or
extend `old`; everything else in `old` survives. -/
def propMerge (old upd : Props) : Props :=
  upd.foldl (fun acc kv => propSet acc kv.1 kv.2) old

/-- One image record of the external service: a handle identity `uid`
(the service's native key), formats, the property map, the nullable display
name, the bulk data channel, and the size. -/
structure ImageRecord where
  uid : Nat
  disk_format : String
  container_format : String
  properties : Props
  name : Option String
  data : Option (List Nat)
  size : Nat
  deriving DecidableEq, Repr

/-- The external image service's state: its records and a fresh-handle counter. -/
structure GlanceState where
  records : List ImageRecord
  nextUid : Nat
  deriving DecidableEq, Repr

/-- Arguments of an `image.update(...)` call: each field independently
settable, plus the optional `purge_props` flag (`none` when the call does not
pass it). -/
structure UpdateArgs where
  properties : Option Props
  uname : Option (Option String)
  udata : Option (List Nat)
  purge_props : Option Bool
  deriving DecidableEq, Repr

/-- Modelled from the spec: the external service's default for the purge
flag when an update does not pass it — properties not included in the update
are deleted (the "default purge behavior"). -/
def defaultPurgeProps : Bool := true

/-- Modelled from the spec: the external service's `update` — properties,
name and data are each independently settable; the purge flag controls
whether properties not included in the update are deleted or preserved, and
does not touch the non-property fields. Setting data updates the size. -/
def recordUpdate (r : ImageRecord) (u : UpdateArgs) : ImageRecord :=
  let purge := u.purge_props.getD defaultPurgeProps
  let ps :=
    match u.properties with
    | some given => if purge then given else propMerge r.properties given
    | none => if purge then [] else r.properties
  { r with
    properties := ps
    name := u.uname.getD r.name
    data := (u.udata.map some).getD r.data
    size := (u.udata.map List.length).getD r.size }

/-- Apply `image.update` through a handle: the record with that `uid` is
replaced in the service's state. -/
def stateUpdate (st : GlanceState) (uid : Nat) (u : UpdateArgs) : GlanceState :=
  ⟨st.records.map (fun r => if r.uid = uid then recordUpdate r u else r), st.nextUid⟩

/-- Apply `image.delete` through a handle. -/
def stateDelete (st : GlanceState) (uid : Nat) : GlanceState :=
  ⟨st.records.filter (fun r => r.uid ≠ uid), st.nextUid⟩

/-- Modelled from the spec: the external service's `create` with a format
pair and initial properties; returns the new record and the new state. -/
def imagesCreate (st : GlanceState) (df cf : String) (ps : Props) :
    ImageRecord × GlanceState :=
  let r : ImageRecord := ⟨st.nextUid, df, cf, ps, none, none, 0⟩
  (r, ⟨st.records ++ [r], st.nextUid + 1⟩)

/-- `GlanceStorageLayers.disk_format`. -/
def disk_format : String := "raw"

/-- `GlanceStorageLayers.container_format`. -/
def container_format : String := "bare"

/-- The filter `_find_image_by_id` passes to the service's list operation:
the fixed format pair and the identifier property. -/
def matchesId (r : ImageRecord) (imageId : String) : Bool :=
  r.disk_format = disk_format && r.container_format = container_format &&
    propLookup r.properties "id" = some imageId

/-- `GlanceStorageLayers._find_image_by_id`: list records filtered by the
fixed formats and the identifier property, take the first or none. -/
def findImageById (st : GlanceState) (imageId : String) : Option ImageRecord :=
  (st.records.filter (fun r => matchesId r imageId)).head?

/-- The `update(name=None, purge_props=False)` call of `_clear_images_name`. -/
def clearNameUpdateArgs : UpdateArgs := ⟨none, some none, none, some false⟩

/-- The `update(name=image_name, purge_props=False)` call of
`_handler_tag_created`. -/
def setNameUpdateArgs (imageName : String) : UpdateArgs :=
  ⟨none, some (some imageName), none, some false⟩

/-- The `update(properties=props, purge_props=False)` call of `put_content`. -/
def putContentUpdateArgs (propname content : String) : UpdateArgs :=
  ⟨some [(propname, content)], none, none, some false⟩

/-- The `update(data=fp, purge_props=False)` call of `stream_write`. -/
def streamWriteUpdateArgs (fp : List Nat) : UpdateArgs :=
  ⟨none, none, some fp, some false⟩

/-- The `update(properties=props)` call of `remove`'s property branch — the
only mutation in the module that passes no `purge_props`. -/
def removePropUpdateArgs (props : Props) : UpdateArgs :=
  ⟨some props, none, none, none⟩

/-- `GlanceStorageLayers._clear_images_name`: list records whose name equals
`imageName` and update each with `name=None, purge_props=False`. -/
def clearImagesName (st : GlanceState) (imageName : String) : GlanceState :=
  ⟨st.records.map (fun r =>
      if r.name = some imageName then recordUpdate r clearNameUpdateArgs
      else r),
    st.nextUid⟩

/-- The DisplayName computed by both tag handlers: `repository:tag`,
prefixed `namespace/` unless the namespace is `library`. -/
def displayName (nspace repository tag : String) : String :=
  let imageName := repository ++ ":" ++ tag
  if nspace ≠ "library" then nspace ++ "/" ++ imageName else imageName

/-- `GlanceStorageLayers._handler_tag_created`: find the record by image-id
(`value`); if none, silently ignore; else clear every holder of the
DisplayName and set this record's name to it (`purge_props=False`). -/
def handlerTagCreated (st : GlanceState) (nspace repository tag value : String) :
    GlanceState :=
  match findImageById st value with
  | none => st
  | some image =>
    let imageName := displayName nspace repository tag
    let st1 := clearImagesName st imageName
    stateUpdate st1 image.uid (setNameUpdateArgs imageName)

/-- `GlanceStorageLayers._handler_tag_deleted`: compute the DisplayName and
clear it from every record holding it. -/
def handlerTagDeleted (st : GlanceState) (nspace repository tag : String) :
    GlanceState :=
  clearImagesName st (displayName nspace repository tag)

/-- Errors raised by the layer store, distinguished as the Python exception
types distinguish them. -/
inductive GErr where
  | invalidPath (path : String)
  | wrongCall (msg : String)
  | ioNoSuchImage (path : String)
  | osNoSuchImage (path : String)
  | noneHandle
  deriving DecidableEq, Repr

/-- `GlanceStorageLayers._init_path`: split the path on `/`; unless it has
exactly three segments with the first equal to the images constant, raise
`ValueError`; look up the record by image-id, creating it (with the format
pair and the identifier property) when absent and `create` is true; the
property name is `meta_<filename>`, or the bulk sentinel (`none`) when the
filename is `layer`. -/
def initPath (st : GlanceState) (path : String) (create : Bool) :
    Except GErr ((Option ImageRecord × Option String) × GlanceState) :=
  match pySplitSlash path with
  | [ns, imageId, filename] =>
    if ns = Storage.images then
      let found := findImageById st imageId
      let step : Option ImageRecord × GlanceState :=
        match found, create with
        | none, true =>
          let created := imagesCreate st disk_format container_format [("id", imageId)]
          (some created.1, created.2)
        | _, _ => (found, st)
      let propname := if filename = "layer" then none else some ("meta_" ++ filename)
      Except.ok ((step.1, propname), step.2)
    else Except.error (GErr.invalidPath path)
  | _ => Except.error (GErr.invalidPath path)

/-- `GlanceStorageLayers.get_content`. -/
def get_content (st : GlanceState) (path : String) :
    Except GErr (String × GlanceState) :=
  match initPath st path false with
  | Except.error e => Except.error e
  | Except.ok ((image, propname), st1) =>
    match propname with
    | none => Except.error (GErr.wrongCall "should be stream_read")
    | some p =>
      match image with
      | none => Except.error (GErr.ioNoSuchImage path)
      | some r =>
        match propLookup r.properties p with
        | none => Except.error (GErr.ioNoSuchImage path)
        | some v => Except.ok (v, st1)

/-- `GlanceStorageLayers.put_content`. -/
def put_content (st : GlanceState) (path : String) (content : String) :
    Except GErr GlanceState :=
  match initPath st path true with
  | Except.error e => Except.error e
  | Except.ok ((image, propname), st1) =>
    match propname with
    | none => Except.error (GErr.wrongCall "should be stream_write")
    | some p =>
      match image with
      | none => Except.error GErr.noneHandle
      | some r =>
        Except.ok (stateUpdate st1 r.uid (putContentUpdateArgs p content))

/-- `GlanceStorageLayers.stream_read`. -/
def stream_read (st : GlanceState) (path : String) :
    Except GErr (Option (List Nat) × GlanceState) :=
  match initPath st path false with
  | Except.error e => Except.error e
  | Except.ok ((image, propname), st1) =>
    match propname with
    | some _ => Except.error (GErr.wrongCall "should be get_content")
    | none =>
      match image with
      | none => Except.error (GErr.ioNoSuchImage path)
      | some r => Except.ok (r.data, st1)

/-- `GlanceStorageLayers.stream_write`. -/
def stream_write (st : GlanceState) (path : String) (fp : List Nat) :
    Except GErr GlanceState :=
  match initPath st path true with
  | Except.error e => Except.error e
  | Except.ok ((image, propname), st1) =>
    match propname with
    | some _ => Except.error (GErr.wrongCall "should be put_content")
    | none =>
      match image with
      | none => Except.error GErr.noneHandle
      | some r =>
        Except.ok (stateUpdate st1 r.uid (streamWriteUpdateArgs fp))

/-- `GlanceStorageLayers.exists`. -/
def existsPath (st : GlanceState) (path : String) :
    Except GErr (Bool × GlanceState) :=
  match initPath st path false with
  | Except.error e => Except.error e
  | Except.ok ((image, propname), st1) =>
    match image with
    | none => Except.ok (false, st1)
    | some r =>
      match propname with
      | none => Except.ok (true, st1)
      | some p => Except.ok ((propLookup r.properties p).isSome, st1)

/-- `GlanceStorageLayers.remove`: no-op without a record; with a property
name, delete just that property (no-op when absent) and persist the remaining
set — this `update` call passes no `purge_props`; on the bulk-data target,
delete the whole record. -/
def remove (st : GlanceState) (path : String) : Except GErr GlanceState :=
  match initPath st path false with
  | Except.error e => Except.error e
  | Except.ok ((image, propname), st1) =>
    match image with
    | none => Except.ok st1
    | some r =>
      match propname with
      | some p =>
        if (propLookup r.properties p).isSome then
          Except.ok (stateUpdate st1 r.uid (removePropUpdateArgs (propErase r.properties p)))
        else Except.ok st1
      | none => Except.ok (stateDelete st1 r.uid)

/-- `GlanceStorageLayers.get_size`. -/
def get_size (st : GlanceState) (path : String) :
    Except GErr (Nat × GlanceState) :=
  match initPath st path false with
  | Except.error e => Except.error e
  | Except.ok ((image, _propname), st1) =>
    match image with
    | none => Except.error (GErr.osNoSuchImage path)
    | some r => Except.ok (r.size, st1)

/-! ### Derived observations used to state the properties -/

/-- The value of property `q` on the record the store resolves for `imageId`. -/
def recordProp (st : GlanceState) (imageId q : String) : Option String :=
  (findImageById st imageId).bind (fun r => propLookup r.properties q)

/-- How many records currently hold the display name `dn`. -/
def countName (st : GlanceState) (dn : String) : Nat :=
  st.records.countP (fun r => r.name = some dn)

/-- At most one record matches the identifier filter for `imageId`. -/
def uniqueId (st : GlanceState) (imageId : String) : Prop :=
  (st.records.filter (fun r => matchesId r imageId)).length ≤ 1

/-- All handles in the service state are distinct. -/
def uidNodup (st : GlanceState) : Prop :=
  (st.records.map ImageRecord.uid).Nodup

/-! ### Concrete sample data -/

/-- A sample attribute surface where every method exists, truthy and callable. -/
def sampleEnv : StoreEnv := ⟨fun _ _ => some ⟨true, true⟩⟩

/-- A sample attribute surface exposing only a falsy non-callable attribute. -/
def falsyEnv : StoreEnv := ⟨fun _ _ => some ⟨false, false⟩⟩

/-- A sample record holding image-id `i1` with two metadata properties. -/
def rWit : ImageRecord :=
  ⟨0, "raw", "bare", [("id", "i1"), ("meta_json", "J"), ("meta_ancestry", "A")],
    none, none, 0⟩

/-- A second sample record, holding image-id `i2` and named `repo:tag`. -/
def rWit2 : ImageRecord :=
  ⟨1, "raw", "bare", [("id", "i2")], some "repo:tag", none, 0⟩

/-- A sample service state holding `rWit` and `rWit2`. -/
def stWit : GlanceState := ⟨[rWit, rWit2], 2⟩

/-- `rWit` after `put_content` writes property `meta_new` with value `V`. -/
def rWitAfter : ImageRecord :=
  ⟨0, "raw", "bare",
    [("id", "i1"), ("meta_json", "J"), ("meta_ancestry", "A"), ("meta_new", "V")],
    none, none, 0⟩

/-- `stWit` after that `put_content`. -/
def stWitAfter : GlanceState := ⟨[rWitAfter, rWit2], 2⟩

/-- `rWit` after `remove` deletes property `meta_json`. -/
def rWitErased : ImageRecord :=
  ⟨0, "raw", "bare", [("id", "i1"), ("meta_ancestry", "A")], none, none, 0⟩

/-- `stWit` after that `remove`. -/
def stWitErased : GlanceState := ⟨[rWitErased, rWit2], 2⟩

end Glance

namespace Glance

/-! ### Helper lemmas -/

theorem propLookup_propSet (ps : Props) (k v q : String) :
    propLookup (propSet ps k v) q = if k = q then some v else propLookup ps q := by
  induction ps with
  | nil => simp [propSet, propLookup]
  | cons hd tl ih =>
    obtain ⟨k', v'⟩ := hd
    by_cases hk : k' = k
    · subst hk
      by_cases hq : k' = q <;> simp [propSet, propLookup, hq]
    · by_cases hq : k' = q
      · subst hq
        have : k ≠ k' := fun h => hk h.symm
        simp [propSet, propLookup, hk, this]
      · simp [propSet, propLookup, hk, hq, ih]

theorem propLookup_propErase (ps : Props) (k q : String) :
    propLookup (propErase ps k) q = if k = q then none else propLookup ps q := by
  induction ps with
  | nil => simp [propErase, propLookup]
  | cons hd tl ih =>
    obtain ⟨k', v'⟩ := hd
    by_cases hk : k' = k
    · subst hk
      by_cases hq : k' = q
      · subst hq; simp [propErase, propLookup, ih]
      · simp [propErase, propLookup, hq, ih]
    · by_cases hq : k' = q
      · subst hq
        have hkq : k ≠ k' := fun h => hk h.symm
        simp [propErase, propLookup, hk, hkq]
      · simp [propErase, propLookup, hk, hq, ih]

theorem propMerge_single (ps : Props) (k v : String) :
    propMerge ps [(k, v)] = propSet ps k v := rfl

theorem meta_ne_id (fname : String) : "meta_" ++ fname ≠ "id" := by
  intro h
  have hlen := congrArg String.length h
  rw [String.length_append] at hlen
  have h5 : ("meta_" : String).length = 5 := rfl
  have h2 : ("id" : String).length = 2 := rfl
  omega

theorem recordUpdate_uid (r : ImageRecord) (u : UpdateArgs) :
    (recordUpdate r u).uid = r.uid := rfl

theorem recordUpdate_disk (r : ImageRecord) (u : UpdateArgs) :
    (recordUpdate r u).disk_format = r.disk_format := rfl

theorem recordUpdate_container (r : ImageRecord) (u : UpdateArgs) :
    (recordUpdate r u).container_format = r.container_format := rfl

/-- An update that either carries no properties or rewrites them without
touching the `id` binding keeps the identifier filter's verdict. -/
theorem matchesId_recordUpdate (r : ImageRecord) (u : UpdateArgs) (imageId : String)
    (hid : propLookup (recordUpdate r u).properties "id" = propLookup r.properties "id") :
    matchesId (recordUpdate r u) imageId = matchesId r imageId := by
  simp only [matchesId, recordUpdate_disk, recordUpdate_container, hid]

theorem putContent_preserves_id (r : ImageRecord) (p content : String) (hp : p ≠ "id") :
    propLookup (recordUpdate r (putContentUpdateArgs p content)).properties "id" =
      propLookup r.properties "id" := by
  simp [recordUpdate, putContentUpdateArgs, propMerge_single, propLookup_propSet, hp]

theorem removeProp_preserves_id (r : ImageRecord) (p : String) (hp : p ≠ "id") :
    propLookup (recordUpdate r (removePropUpdateArgs (propErase r.properties p))).properties "id" =
      propLookup r.properties "id" := by
  simp [recordUpdate, removePropUpdateArgs, defaultPurgeProps, propLookup_propErase, hp]

/-- Effect of `stateUpdate` on the resolved record, when the update keeps the
identifier filter's verdict on every record. -/
theorem findImageById_stateUpdate (st : GlanceState) (uid : Nat) (u : UpdateArgs)
    (imageId : String)
    (hpres : ∀ x ∈ st.records, x.uid = uid →
      matchesId (recordUpdate x u) imageId = matchesId x imageId) :
    findImageById (stateUpdate st uid u) imageId =
      (findImageById st imageId).map
        (fun r => if r.uid = uid then recordUpdate r u else r) := by
  unfold findImageById stateUpdate
  rw [List.filter_map]
  have hcongr : st.records.filter
      ((fun r => matchesId r imageId) ∘ fun r => if r.uid = uid then recordUpdate r u else r) =
      st.records.filter (fun r => matchesId r imageId) := by
    refine List.filter_congr ?_
    intro a ha
    by_cases h : a.uid = uid
    · simp [h, hpres a ha h]
    · simp [h]
  rw [hcongr, List.head?_map]

/-- A record resolved by `_find_image_by_id` is in the state and passes the
identifier filter. -/
theorem findImageById_mem (st : GlanceState) (b : String) (r : ImageRecord)
    (hf : findImageById st b = some r) :
    r ∈ st.records ∧ matchesId r b = true := by
  unfold findImageById at hf
  cases hfil : st.records.filter (fun x => matchesId x b) with
  | nil => rw [hfil] at hf; cases hf
  | cons a t =>
    rw [hfil] at hf
    have he : a = r := by injection hf
    subst he
    have hmem : a ∈ st.records.filter (fun x => matchesId x b) := by
      rw [hfil]; exact List.mem_cons_self a t
    refine ⟨List.mem_of_mem_filter hmem, ?_⟩
    have hp := List.of_mem_filter hmem
    simpa using hp

/-- With pairwise distinct handles, two members sharing a `uid` are equal. -/
theorem uid_inj_of_nodup (l : List ImageRecord)
    (h : (l.map ImageRecord.uid).Nodup) :
    ∀ x ∈ l, ∀ y ∈ l, x.uid = y.uid → x = y := by
  induction l with
  | nil => intro x hx; cases hx
  | cons a t ih =>
    rw [List.map_cons, List.nodup_cons] at h
    intro x hx y hy he
    cases hx with
    | head =>
      cases hy with
      | head => rfl
      | tail _ hy2 =>
        have hm : y.uid ∈ t.map ImageRecord.uid := List.mem_map_of_mem _ hy2
        rw [← he] at hm
        exact absurd hm h.1
    | tail _ hx2 =>
      cases hy with
      | head =>
        have hm : x.uid ∈ t.map ImageRecord.uid := List.mem_map_of_mem _ hx2
        rw [he] at hm
        exact absurd hm h.1
      | tail _ hy2 => exact ih h.2 x hx2 y hy2 he

/-- Evaluation of `_init_path` with `create=False` on a three-segment path. -/
theorem initPath_false_eq (st : GlanceState) (path a b c : String)
    (hsp : pySplitSlash path = [a, b, c]) :
    initPath st path false =
      if a = Storage.images then
        Except.ok ((findImageById st b, if c = "layer" then none else some ("meta_" ++ c)), st)
      else Except.error (GErr.invalidPath path) := by
  unfold initPath
  rw [hsp]
  by_cases ha : a = Storage.images <;> simp [ha]

/-- Evaluation of `_init_path` with `create=True` when the record exists. -/
theorem initPath_true_eq_found (st : GlanceState) (path a b c : String)
    (r : ImageRecord) (hsp : pySplitSlash path = [a, b, c])
    (ha : a = Storage.images) (hf : findImageById st b = some r) :
    initPath st path true =
      Except.ok ((some r, if c = "layer" then none else some ("meta_" ++ c)), st) := by
  unfold initPath
  rw [hsp]
  simp [ha, hf]

/-- Evaluation of `_init_path` with `create=True` when the record is missing:
it is created with the format pair and the identifier property. -/
theorem initPath_true_eq_missing (st : GlanceState) (path a b c : String)
    (hsp : pySplitSlash path = [a, b, c])
    (ha : a = Storage.images) (hf : findImageById st b = none) :
    initPath st path true =
      Except.ok
        ((some (imagesCreate st disk_format container_format [("id", b)]).1,
          if c = "layer" then none else some ("meta_" ++ c)),
         (imagesCreate st disk_format container_format [("id", b)]).2) := by
  unfold initPath
  rw [hsp]
  simp [ha, hf]

/-- `_init_path` rejects any path without exactly three segments. -/
theorem initPath_err_of_not3 (st : GlanceState) (path : String) (create : Bool)
    (h : (pySplitSlash path).length ≠ 3) :
    initPath st path create = Except.error (GErr.invalidPath path) := by
  unfold initPath
  rcases hsp : pySplitSlash path with _ | ⟨a, _ | ⟨b, _ | ⟨c, _ | ⟨d, l⟩⟩⟩⟩ <;> simp_all

/-- `_init_path` rejects any three-segment path whose first segment is not
the images constant. -/
theorem initPath_err_of_ns (st : GlanceState) (path a b c : String) (create : Bool)
    (hsp : pySplitSlash path = [a, b, c]) (ha : a ≠ Storage.images) :
    initPath st path create = Except.error (GErr.invalidPath path) := by
  unfold initPath
  rw [hsp]
  simp [ha]

theorem initPath_false_state (st : GlanceState) (path : String)
    (res : (Option ImageRecord × Option String) × GlanceState)
    (h : initPath st path false = Except.ok res) : res.2 = st := by
  rcases hsp : pySplitSlash path with _ | ⟨a, _ | ⟨b, _ | ⟨c, _ | ⟨d, l⟩⟩⟩⟩
  · rw [initPath_err_of_not3 st path false (by rw [hsp]; simp)] at h; cases h
  · rw [initPath_err_of_not3 st path false (by rw [hsp]; simp)] at h; cases h
  · rw [initPath_err_of_not3 st path false (by rw [hsp]; simp)] at h; cases h
  · rw [initPath_false_eq st path a b c hsp] at h
    by_cases ha : a = Storage.images
    · rw [if_pos ha] at h
      cases h
      rfl
    · rw [if_neg ha] at h; cases h
  · rw [initPath_err_of_not3 st path false (by rw [hsp]; simp)] at h; cases h

/-! ### Claim theorems -/

/-- C7: at construction, `storage_alternate = s3` selects the object-store
backend, `local` or absence selects the local-disk backend, and every other
value raises a configuration error before any request handling. -/
theorem selectAlternate_spec (k : String) (hs : k ≠ "s3") (hl : k ≠ "local") :
    selectAlternate (some "s3") = Except.ok AltKind.s3store ∧
    selectAlternate (some "local") = Except.ok AltKind.localstore ∧
    selectAlternate none = Except.ok AltKind.localstore ∧
    selectAlternate (some k) = Except.error ("Not supported storage " ++ k) := by
  refine ⟨rfl, rfl, rfl, ?_⟩
  simp [selectAlternate, hs, hl]

/-- Witness for C7 at the concrete unrecognized value `ftp`. -/
theorem selectAlternate_spec_witness :
    ("ftp" : String) ≠ "s3" ∧ ("ftp" : String) ≠ "local" ∧
      selectAlternate (some "ftp") = Except.error ("Not supported storage " ++ "ftp") :=
  ⟨by decide, by decide, (selectAlternate_spec "ftp" (by decide) (by decide)).2.2.2⟩

theorem resolveClassPath_routed (env : StoreEnv) (methodName : String)
    (args : List PyVal) (kwargs : Kwargs) (k : StoreKind) (a : Attr)
    (h : resolveClassPath env methodName args kwargs = Except.ok (some (k, a))) :
    routedStore args kwargs = some k := by
  unfold resolveClassPath at h
  unfold routedStore
  cases hc : classifyVal (resolvePathVal args kwargs) with
  | error e => rw [hc] at h; simp at h
  | ok k0 =>
    rw [hc] at h
    have h2 : Option.map (fun a => (k0, a)) (env.attrs k0 methodName) = some (k, a) := by
      injection h
    show some k0 = some k
    cases ho : env.attrs k0 methodName with
    | none => rw [ho] at h2; cases h2
    | some a0 =>
      rw [ho] at h2
      simp at h2
      rw [h2.1]

/-- Evaluation of one dispatched call once `_resolve_class_path` yields an
attribute on backend `k`. -/
theorem dispatcher_eq_of_resolve (env : StoreEnv) (methodName : String)
    (args : List PyVal) (kwargs : Kwargs) (k : StoreKind) (a : Attr)
    (hres : resolveClassPath env methodName args kwargs = Except.ok (some (k, a))) :
    dispatcher env methodName args kwargs =
      (if a.truthy = false then Dispatched.dispatchError methodName args kwargs
       else if a.callable = true then Dispatched.invoked k methodName args kwargs
       else Dispatched.returnedAttr k a) := by
  unfold dispatcher
  rw [hres]

/-- C1: the dispatcher extracts the path (named `path` argument, else the
first positional string, else empty), routes a path with the image-namespace
prefix to the layer store, one with the repository-namespace prefix to the
alternate store, and anything else (including the empty default) to the base
store, and an invoked method receives the original arguments unchanged. -/
theorem dispatch_routing_spec (env : StoreEnv) (methodName : String)
    (args : List PyVal) (kwargs : Kwargs) :
    (∀ s, resolvePathVal args kwargs = PyVal.str s →
      routedStore args kwargs = some
        (if pyStartsWith s Storage.images then StoreKind.layers
         else if pyStartsWith s Storage.repositories then StoreKind.tags
         else StoreKind.base)) ∧
    (kwLookup kwargs "path" = none → (∀ s, args.head? ≠ some (PyVal.str s)) →
      routedStore args kwargs = some StoreKind.base) ∧
    (∀ k m a kw, dispatcher env methodName args kwargs = Dispatched.invoked k m a kw →
      m = methodName ∧ a = args ∧ kw = kwargs ∧ routedStore args kwargs = some k) := by
  refine ⟨?_, ?_, ?_⟩
  · intro s hs
    unfold routedStore classifyVal
    rw [hs]
    simp [classify]
  · intro hkw hargs
    have hres : resolvePathVal args kwargs = PyVal.str "" := by
      unfold resolvePathVal
      rw [hkw]
      cases args with
      | nil => rfl
      | cons a rest =>
        cases a with
        | str s => exact absurd rfl (hargs s)
        | nonstr => rfl
    unfold routedStore classifyVal
    rw [hres]
    decide
  · intro k m a kw h
    cases hres : resolveClassPath env methodName args kwargs with
    | error e => unfold dispatcher at h; rw [hres] at h; simp at h
    | ok o =>
      cases o with
      | none => unfold dispatcher at h; rw [hres] at h; simp at h
      | some pair =>
        obtain ⟨k', a'⟩ := pair
        rw [dispatcher_eq_of_resolve env methodName args kwargs k' a' hres] at h
        by_cases ht : a'.truthy = false
        · rw [if_pos ht] at h; cases h
        · rw [if_neg ht] at h
          by_cases hc : a'.callable = true
          · rw [if_pos hc] at h
            injection h with e1 e2 e3 e4
            exact ⟨e2.symm, e3.symm, e4.symm,
              e1 ▸ resolveClassPath_routed env methodName args kwargs k' a' hres⟩
          · rw [if_neg hc] at h; cases h

/-- Witness for C1: concrete layer, repository and base paths route to the
three backends. -/
theorem dispatch_routing_spec_witness :
    routedStore [PyVal.str "images/abc/layer"] [] = some StoreKind.layers ∧
    routedStore [PyVal.str "repositories/ns/repo/tags/t"] [] = some StoreKind.tags ∧
    routedStore [PyVal.str "uploads/u-1"] [] = some StoreKind.base := by
  refine ⟨?_, ?_, ?_⟩
  · have h := (dispatch_routing_spec sampleEnv "get_content"
      [PyVal.str "images/abc/layer"] []).1 "images/abc/layer" rfl
    rw [h]; decide
  · have h := (dispatch_routing_spec sampleEnv "get_content"
      [PyVal.str "repositories/ns/repo/tags/t"] []).1 "repositories/ns/repo/tags/t" rfl
    rw [h]; decide
  · have h := (dispatch_routing_spec sampleEnv "get_content"
      [PyVal.str "uploads/u-1"] []).1 "uploads/u-1" rfl
    rw [h]; decide

/-- C8: when the classified backend has the attribute but it is falsy, the
dispatcher raises the dispatch error; truthy non-callable attributes are
returned directly, truthy callable ones are invoked. -/
theorem dispatch_falsy_spec (env : StoreEnv) (methodName : String)
    (args : List PyVal) (kwargs : Kwargs) (k : StoreKind) (a : Attr)
    (hres : resolveClassPath env methodName args kwargs = Except.ok (some (k, a))) :
    (a.truthy = false →
      dispatcher env methodName args kwargs =
        Dispatched.dispatchError methodName args kwargs) ∧
    (a.truthy = true → a.callable = false →
      dispatcher env methodName args kwargs = Dispatched.returnedAttr k a) ∧
    (a.truthy = true → a.callable = true →
      dispatcher env methodName args kwargs =
        Dispatched.invoked k methodName args kwargs) := by
  rw [dispatcher_eq_of_resolve env methodName args kwargs k a hres]
  refine ⟨?_, ?_, ?_⟩
  · intro h1
    rw [if_pos h1]
  · intro h1 h2
    rw [if_neg (by rw [h1]; simp), if_neg (by rw [h2]; simp)]
  · intro h1 h2
    rw [if_neg (by rw [h1]; simp), if_pos h2]

/-- Witness for C8: a backend whose attribute exists but is falsy makes the
dispatcher raise instead of returning the attribute. -/
theorem dispatch_falsy_spec_witness :
    dispatcher falsyEnv "get_content" [PyVal.str "uploads/u"] [] =
      Dispatched.dispatchError "get_content" [PyVal.str "uploads/u"] [] :=
  (dispatch_falsy_spec falsyEnv "get_content" [PyVal.str "uploads/u"] []
    StoreKind.base ⟨false, false⟩ rfl).1 rfl

/-- C9: a keyword `path` argument takes precedence over the first positional
argument, and in both fallback cases (non-string positional head, no path at
all) the call routes to the base store. -/
theorem resolve_kwarg_spec (args : List PyVal) (kwargs : Kwargs) :
    (∀ v, kwLookup kwargs "path" = some v → resolvePathVal args kwargs = v) ∧
    (kwLookup kwargs "path" = none → args.head? = some PyVal.nonstr →
      resolvePathVal args kwargs = PyVal.str "" ∧
        routedStore args kwargs = some StoreKind.base) ∧
    (kwLookup kwargs "path" = none → args = [] →
      resolvePathVal args kwargs = PyVal.str "" ∧
        routedStore args kwargs = some StoreKind.base) := by
  refine ⟨?_, ?_, ?_⟩
  · intro v hv
    unfold resolvePathVal
    rw [hv]
  · intro hkw hhead
    have hres : resolvePathVal args kwargs = PyVal.str "" := by
      unfold resolvePathVal
      rw [hkw]
      cases args with
      | nil => cases hhead
      | cons a rest =>
        cases a with
        | str s => simp at hhead
        | nonstr => rfl
    refine ⟨hres, ?_⟩
    unfold routedStore classifyVal
    rw [hres]
    decide
  · intro hkw hnil
    subst hnil
    have hres : resolvePathVal [] kwargs = PyVal.str "" := by
      unfold resolvePathVal
      rw [hkw]
    refine ⟨hres, ?_⟩
    unfold routedStore classifyVal
    rw [hres]
    decide

/-- Witness for C9: the keyword path wins over a conflicting positional one,
and a lone non-string positional routes to the base store. -/
theorem resolve_kwarg_spec_witness :
    resolvePathVal [PyVal.str "images/i/layer"] [("path", PyVal.str "repositories/r")] =
      PyVal.str "repositories/r" ∧
    routedStore [PyVal.nonstr] [] = some StoreKind.base :=
  ⟨(resolve_kwarg_spec [PyVal.str "images/i/layer"]
      [("path", PyVal.str "repositories/r")]).1 (PyVal.str "repositories/r") rfl,
   ((resolve_kwarg_spec [PyVal.nonstr] []).2.1 rfl rfl).2⟩

/-- C6: `_init_path` raises the invalid-path error unless the path has
exactly three slash-separated segments with the first equal to the
image-namespace constant; on success the PropertyKey is `meta_<filename>`
for every filename except the reserved `layer`, which selects the bulk-data
sentinel, and exactly one of the two holds. -/
theorem initPath_spec (st : GlanceState) (path : String) (create : Bool) :
    ((pySplitSlash path).length ≠ 3 →
      initPath st path create = Except.error (GErr.invalidPath path)) ∧
    (∀ a b c, pySplitSlash path = [a, b, c] → a ≠ Storage.images →
      initPath st path create = Except.error (GErr.invalidPath path)) ∧
    (∀ b c, pySplitSlash path = [Storage.images, b, c] →
      ∃ img st' pk,
        initPath st path create = Except.ok ((img, pk), st') ∧
        (pk = none ↔ c = "layer") ∧
        (c ≠ "layer" → pk = some ("meta_" ++ c))) := by
  refine ⟨initPath_err_of_not3 st path create,
    fun a b c hsp ha => initPath_err_of_ns st path a b c create hsp ha, ?_⟩
  intro b c hsp
  have hpk : ∀ img st',
      initPath st path create = Except.ok ((img, if c = "layer" then none
        else some ("meta_" ++ c)), st') →
      ∃ img2 st2 pk, initPath st path create = Except.ok ((img2, pk), st2) ∧
        (pk = none ↔ c = "layer") ∧ (c ≠ "layer" → pk = some ("meta_" ++ c)) := by
    intro img st' h
    refine ⟨img, st', _, h, ?_, ?_⟩
    · by_cases hc : c = "layer" <;> simp [hc]
    · intro hc; simp [hc]
  cases create with
  | false =>
    have h := initPath_false_eq st path Storage.images b c hsp
    rw [if_pos rfl] at h
    exact hpk _ _ h
  | true =>
    cases hf : findImageById st b with
    | none => exact hpk _ _ (initPath_true_eq_missing st path Storage.images b c hsp rfl hf)
    | some r => exact hpk _ _ (initPath_true_eq_found st path Storage.images b c r hsp rfl hf)

/-- Witness for C6: a one-segment path is rejected, and a metadata path
parses to the `meta_` PropertyKey with no bulk sentinel. -/
theorem initPath_spec_witness :
    initPath ⟨[], 0⟩ "badpath" false = Except.error (GErr.invalidPath "badpath") ∧
    (∃ img st' pk,
      initPath ⟨[], 0⟩ "images/i1/json" false = Except.ok ((img, pk), st') ∧
      (pk = none ↔ "json" = "layer") ∧
      (("json" : String) ≠ "layer" → pk = some ("meta_" ++ "json"))) :=
  ⟨(initPath_spec ⟨[], 0⟩ "badpath" false).1 (by decide),
   (initPath_spec ⟨[], 0⟩ "images/i1/json" false).2.2 "i1" "json" (by decide)⟩

/-- Success evaluation of `get_content` (shared by several proofs). -/
theorem get_content_ok (st : GlanceState) (path b c v : String) (r : ImageRecord)
    (hsp : pySplitSlash path = [Storage.images, b, c]) (hc : c ≠ "layer")
    (hf : findImageById st b = some r)
    (hp : propLookup r.properties ("meta_" ++ c) = some v) :
    get_content st path = Except.ok (v, st) := by
  have hip := initPath_false_eq st path Storage.images b c hsp
  rw [if_pos rfl] at hip
  unfold get_content
  rw [hip]
  simp [hc, hf, hp]

/-- C5: on a path accepted by parsing, `get_content` raises the usage error
exactly on the bulk-data target, the not-found error exactly when a property
is targeted and the record or the property is absent, returns the property
value otherwise, and never creates a record. -/
theorem get_content_spec (st : GlanceState) (path b c : String)
    (hsp : pySplitSlash path = [Storage.images, b, c]) :
    (c = "layer" →
      get_content st path = Except.error (GErr.wrongCall "should be stream_read")) ∧
    (c ≠ "layer" → findImageById st b = none →
      get_content st path = Except.error (GErr.ioNoSuchImage path)) ∧
    (∀ r, c ≠ "layer" → findImageById st b = some r →
      (propLookup r.properties ("meta_" ++ c) = none →
        get_content st path = Except.error (GErr.ioNoSuchImage path)) ∧
      (∀ v, propLookup r.properties ("meta_" ++ c) = some v →
        get_content st path = Except.ok (v, st))) ∧
    (∀ v st', get_content st path = Except.ok (v, st') → st' = st) := by
  have hip := initPath_false_eq st path Storage.images b c hsp
  rw [if_pos rfl] at hip
  refine ⟨?_, ?_, ?_, ?_⟩
  · intro hc
    unfold get_content
    rw [hip]
    simp [hc]
  · intro hc hf
    unfold get_content
    rw [hip]
    simp [hc, hf]
  · intro r hc hf
    constructor
    · intro hp
      unfold get_content
      rw [hip]
      simp [hc, hf, hp]
    · intro v hp
      exact get_content_ok st path b c v r hsp hc hf hp
  · intro v st' h
    unfold get_content at h
    rw [hip] at h
    by_cases hc : c = "layer"
    · simp [hc] at h
    · cases hf : findImageById st b with
      | none => simp [hc, hf] at h
      | some r =>
        cases hp : propLookup r.properties ("meta_" ++ c) with
        | none => simp [hc, hf, hp] at h
        | some w =>
          simp [hc, hf, hp] at h
          exact h.2.symm

/-- Witness for C5 on concrete states: bulk target raises the usage error,
a missing property raises not-found, a present property is returned, and the
state is unchanged. -/
theorem get_content_spec_witness :
    get_content stWit "images/i1/layer" =
      Except.error (GErr.wrongCall "should be stream_read") ∧
    get_content stWit "images/i1/nope" =
      Except.error (GErr.ioNoSuchImage "images/i1/nope") ∧
    get_content stWit "images/i1/json" = Except.ok ("J", stWit) := by
  refine ⟨?_, ?_, ?_⟩
  · exact (get_content_spec stWit "images/i1/layer" "i1" "layer" (by decide)).1 rfl
  · exact ((get_content_spec stWit "images/i1/nope" "i1" "nope" (by decide)).2.2.1
      rWit (by decide) (by decide)).1 (by decide)
  · exact ((get_content_spec stWit "images/i1/json" "i1" "json" (by decide)).2.2.1
      rWit (by decide) (by decide)).2 "J" (by decide)

/-- After a lazy create for a previously-unseen image-id, the lookup resolves
the freshly created record. -/
theorem findImageById_create (st : GlanceState) (b : String)
    (hf : findImageById st b = none) :
    findImageById (imagesCreate st disk_format container_format [("id", b)]).2 b =
      some (imagesCreate st disk_format container_format [("id", b)]).1 := by
  unfold findImageById at hf ⊢
  rw [List.head?_eq_none_iff] at hf
  unfold imagesCreate
  rw [List.filter_append, hf]
  simp [matchesId, propLookup]

/-- The written property on the put-updated record. -/
theorem putContent_lookup_self (r : ImageRecord) (p content : String) :
    propLookup (recordUpdate r (putContentUpdateArgs p content)).properties p =
      some content := by
  simp [recordUpdate, putContentUpdateArgs, propMerge_single, propLookup_propSet]

/-- Other properties of the put-updated record are untouched. -/
theorem putContent_lookup_other (r : ImageRecord) (p content q : String) (hq : p ≠ q) :
    propLookup (recordUpdate r (putContentUpdateArgs p content)).properties q =
      propLookup r.properties q := by
  simp [recordUpdate, putContentUpdateArgs, propMerge_single, propLookup_propSet, hq]

/-- C2: on an image-namespace metadata path, `put_content` then `get_content`
returns the written value unchanged, and every property previously set on the
resolved record keeps its previous value. -/
theorem put_get_roundtrip (st : GlanceState) (path b c content : String)
    (hsp : pySplitSlash path = [Storage.images, b, c])
    (hc : c ≠ "layer") :
    ∃ st', put_content st path content = Except.ok st' ∧
      get_content st' path = Except.ok (content, st') ∧
      ∀ q v, q ≠ "meta_" ++ c → recordProp st b q = some v →
        recordProp st' b q = some v := by
  have hpres : ∀ x : ImageRecord,
      matchesId (recordUpdate x (putContentUpdateArgs ("meta_" ++ c) content)) b =
        matchesId x b :=
    fun x => matchesId_recordUpdate x _ b
      (putContent_preserves_id x ("meta_" ++ c) content (meta_ne_id c))
  cases hf : findImageById st b with
  | some r =>
    refine ⟨stateUpdate st r.uid (putContentUpdateArgs ("meta_" ++ c) content), ?_, ?_, ?_⟩
    · unfold put_content
      rw [initPath_true_eq_found st path Storage.images b c r hsp rfl hf]
      simp [hc]
    · have hfind := findImageById_stateUpdate st r.uid
        (putContentUpdateArgs ("meta_" ++ c) content) b (fun x _ _ => hpres x)
      rw [hf] at hfind
      simp only [Option.map_some', eq_self_iff_true, if_true] at hfind
      exact get_content_ok _ path b c content _ hsp hc hfind
        (putContent_lookup_self r ("meta_" ++ c) content)
    · intro q v hq hv
      have hfind := findImageById_stateUpdate st r.uid
        (putContentUpdateArgs ("meta_" ++ c) content) b (fun x _ _ => hpres x)
      rw [hf] at hfind
      simp only [Option.map_some', eq_self_iff_true, if_true] at hfind
      unfold recordProp at hv ⊢
      rw [hf] at hv
      rw [hfind]
      simp only [Option.some_bind] at hv ⊢
      rw [putContent_lookup_other r ("meta_" ++ c) content q (fun h => hq h.symm)]
      exact hv
  | none =>
    have hcreated := findImageById_create st b hf
    refine ⟨stateUpdate (imagesCreate st disk_format container_format [("id", b)]).2
        (imagesCreate st disk_format container_format [("id", b)]).1.uid
        (putContentUpdateArgs ("meta_" ++ c) content), ?_, ?_, ?_⟩
    · unfold put_content
      rw [initPath_true_eq_missing st path Storage.images b c hsp rfl hf]
      simp [hc]
    · have hfind := findImageById_stateUpdate
        (imagesCreate st disk_format container_format [("id", b)]).2
        (imagesCreate st disk_format container_format [("id", b)]).1.uid
        (putContentUpdateArgs ("meta_" ++ c) content) b (fun x _ _ => hpres x)
      rw [hcreated] at hfind
      simp only [Option.map_some', eq_self_iff_true, if_true] at hfind
      exact get_content_ok _ path b c content _ hsp hc hfind
        (putContent_lookup_self _ ("meta_" ++ c) content)
    · intro q v hq hv
      unfold recordProp at hv
      rw [hf] at hv
      cases hv

/-- Witness for C2 on a concrete state: the write is readable back and the
previously-set `meta_json` property survives. -/
theorem put_get_roundtrip_witness :
    put_content stWit "images/i1/new" "V" = Except.ok stWitAfter ∧
    get_content stWitAfter "images/i1/new" = Except.ok ("V", stWitAfter) ∧
    recordProp stWitAfter "i1" "meta_json" = some "J" := by
  obtain ⟨st', h1, h2, h3⟩ :=
    put_get_roundtrip stWit "images/i1/new" "i1" "new" "V" (by decide) (by decide)
  have hcalc : put_content stWit "images/i1/new" "V" = Except.ok stWitAfter := by rfl
  rw [hcalc] at h1
  have he : stWitAfter = st' := by injection h1
  subst he
  exact ⟨hcalc, h2, h3 "meta_json" "J" (by decide) (by decide)⟩

/-- When at most one record matches an image-id, deleting the resolved
record's handle leaves no match. -/
theorem findImageById_stateDelete_none (st : GlanceState) (b : String)
    (r : ImageRecord) (hf : findImageById st b = some r) (huniq : uniqueId st b) :
    findImageById (stateDelete st r.uid) b = none := by
  have hfil : st.records.filter (fun x => matchesId x b) = [r] := by
    unfold findImageById at hf
    unfold uniqueId at huniq
    cases hfil2 : st.records.filter (fun x => matchesId x b) with
    | nil => rw [hfil2] at hf; cases hf
    | cons a t =>
      rw [hfil2] at hf
      have he : a = r := by injection hf
      subst he
      rw [hfil2] at huniq
      have hlen : t.length = 0 := by
        have h1 : t.length + 1 ≤ 1 := by simpa using huniq
        omega
      have ht : t = [] := List.eq_nil_of_length_eq_zero hlen
      rw [ht]
  unfold findImageById stateDelete
  rw [List.head?_eq_none_iff, List.filter_filter, List.filter_eq_nil_iff]
  intro x hx
  simp only [Bool.and_eq_true, decide_eq_true_eq, not_and]
  intro hm hne
  have hxf : x ∈ st.records.filter (fun y => matchesId y b) :=
    List.mem_filter.mpr ⟨hx, hm⟩
  rw [hfil] at hxf
  have hxr : x = r := by simpa using hxf
  exact absurd (congrArg ImageRecord.uid hxr) hne

/-- C4: `remove` is a no-op without a matching record; on a property target
it deletes only that property (a no-op when absent) and leaves the record and
its other properties in place; on the bulk-data target it deletes the whole
record, so `exists` is subsequently false on every path of that image-id. -/
theorem remove_spec (st : GlanceState) (path b c : String)
    (hsp : pySplitSlash path = [Storage.images, b, c]) :
    (findImageById st b = none → remove st path = Except.ok st) ∧
    (∀ r, findImageById st b = some r → c ≠ "layer" → uidNodup st →
      (propLookup r.properties ("meta_" ++ c) = none →
        remove st path = Except.ok st) ∧
      (∀ v, propLookup r.properties ("meta_" ++ c) = some v →
        ∃ st', remove st path = Except.ok st' ∧
          recordProp st' b ("meta_" ++ c) = none ∧
          (∀ q, q ≠ "meta_" ++ c → recordProp st' b q = recordProp st b q) ∧
          (findImageById st' b).isSome = true ∧
          st'.records.length = st.records.length)) ∧
    (∀ r, findImageById st b = some r → c = "layer" →
      remove st path = Except.ok (stateDelete st r.uid) ∧
      (uniqueId st b →
        ∀ path2 c2, pySplitSlash path2 = [Storage.images, b, c2] →
          existsPath (stateDelete st r.uid) path2 =
            Except.ok (false, stateDelete st r.uid))) := by
  have hip := initPath_false_eq st path Storage.images b c hsp
  rw [if_pos rfl] at hip
  refine ⟨?_, ?_, ?_⟩
  · intro hf
    unfold remove
    rw [hip]
    simp [hf]
  · intro r hf hc hwf
    constructor
    · intro hp
      unfold remove
      rw [hip]
      simp [hc, hf, hp]
    · intro v hp
      have hrmem := findImageById_mem st b r hf
      have hpres : ∀ x ∈ st.records, x.uid = r.uid →
          matchesId (recordUpdate x
            (removePropUpdateArgs (propErase r.properties ("meta_" ++ c)))) b =
            matchesId x b := by
        intro x hx hxu
        have hxr : x = r := uid_inj_of_nodup st.records hwf x hx r hrmem.1 hxu
        subst hxr
        exact matchesId_recordUpdate x _ b
          (removeProp_preserves_id x ("meta_" ++ c) (meta_ne_id c))
      have hfind := findImageById_stateUpdate st r.uid
        (removePropUpdateArgs (propErase r.properties ("meta_" ++ c))) b hpres
      rw [hf] at hfind
      simp only [Option.map_some', eq_self_iff_true, if_true] at hfind
      refine ⟨stateUpdate st r.uid
        (removePropUpdateArgs (propErase r.properties ("meta_" ++ c))), ?_, ?_, ?_, ?_, ?_⟩
      · unfold remove
        rw [hip]
        simp [hc, hf, hp]
      · unfold recordProp
        rw [hfind]
        simp only [Option.some_bind]
        show propLookup (recordUpdate r _).properties ("meta_" ++ c) = none
        simp [recordUpdate, removePropUpdateArgs, defaultPurgeProps, propLookup_propErase]
      · intro q hq
        unfold recordProp
        rw [hfind, hf]
        simp only [Option.some_bind]
        show propLookup (recordUpdate r _).properties q = propLookup r.properties q
        have hne : "meta_" ++ c ≠ q := fun h => hq h.symm
        simp [recordUpdate, removePropUpdateArgs, defaultPurgeProps,
          propLookup_propErase, hne]
      · rw [hfind]
        rfl
      · unfold stateUpdate
        simp
  · intro r hf hc
    constructor
    · unfold remove
      rw [hip]
      simp [hc, hf]
    · intro huniq path2 c2 hsp2
      have hnone := findImageById_stateDelete_none st b r hf huniq
      have hip2 := initPath_false_eq (stateDelete st r.uid) path2 Storage.images b c2 hsp2
      rw [if_pos rfl] at hip2
      unfold existsPath
      rw [hip2]
      simp [hnone]

/-- Witness for C4 on a concrete state: property removal erases only
`meta_json`, and bulk removal deletes the record so `exists` turns false. -/
theorem remove_spec_witness :
    remove stWit "images/i1/json" = Except.ok stWitErased ∧
    recordProp stWitErased "i1" "meta_json" = none ∧
    recordProp stWitErased "i1" "meta_ancestry" = recordProp stWit "i1" "meta_ancestry" ∧
    remove stWit "images/i1/layer" = Except.ok (stateDelete stWit rWit.uid) ∧
    existsPath (stateDelete stWit rWit.uid) "images/i1/json" =
      Except.ok (false, stateDelete stWit rWit.uid) := by
  obtain ⟨hnone, hsome⟩ :=
    (remove_spec stWit "images/i1/json" "i1" "json" (by decide)).2.1 rWit
      (by rfl) (by decide) (by unfold uidNodup; decide)
  obtain ⟨st', h1, h2, h3, _h4, _h5⟩ := hsome "J" (by decide)
  have hcalc : remove stWit "images/i1/json" = Except.ok stWitErased := by rfl
  rw [hcalc] at h1
  have he : stWitErased = st' := by injection h1
  subst he
  obtain ⟨hb1, hb2⟩ :=
    (remove_spec stWit "images/i1/layer" "i1" "layer" (by decide)).2.2 rWit (by rfl) rfl
  exact ⟨hcalc, h2, h3 "meta_ancestry" (by decide), hb1,
    hb2 (by unfold uniqueId; decide) "images/i1/json" "json" (by decide)⟩

theorem clearName_name (x : ImageRecord) :
    (recordUpdate x clearNameUpdateArgs).name = none := rfl

theorem setName_name (x : ImageRecord) (n : String) :
    (recordUpdate x (setNameUpdateArgs n)).name = some n := rfl

theorem clearName_props (x : ImageRecord) :
    (recordUpdate x clearNameUpdateArgs).properties = x.properties := rfl

theorem setName_props (x : ImageRecord) (n : String) :
    (recordUpdate x (setNameUpdateArgs n)).properties = x.properties := rfl

/-- With pairwise distinct handles, at most one member carries a given `uid`. -/
theorem countP_uid_le_one (l : List ImageRecord)
    (h : (l.map ImageRecord.uid).Nodup) (u : Nat) :
    l.countP (fun x => x.uid = u) ≤ 1 := by
  induction l with
  | nil => simp
  | cons a t ih =>
    rw [List.map_cons, List.nodup_cons] at h
    rw [List.countP_cons]
    by_cases ha : a.uid = u
    · have h0 : t.countP (fun x => x.uid = u) = 0 := by
        rw [List.countP_eq_zero]
        intro x hx
        simp only [decide_eq_true_eq]
        intro hxu
        have hm : x.uid ∈ t.map ImageRecord.uid := List.mem_map_of_mem _ hx
        rw [hxu, ← ha] at hm
        exact absurd hm h.1
      simp [h0, ha]
    · simpa [ha] using ih h.2

/-- C3: on a tag-created event with no record matching the image-id the
handler is a silent no-op; otherwise it computes the DisplayName
(`repository:tag`, prefixed `namespace/` unless the namespace is `library`),
clears the name of every record holding that DisplayName and sets the
matched record's name to it — afterwards at most one record holds the
DisplayName, and no record's properties are touched. -/
theorem tag_created_spec (st : GlanceState) (nspace repository tag value : String)
    (hwf : uidNodup st) :
    (findImageById st value = none →
      handlerTagCreated st nspace repository tag value = st) ∧
    (displayName nspace repository tag =
      if nspace = "library" then repository ++ ":" ++ tag
      else nspace ++ "/" ++ (repository ++ ":" ++ tag)) ∧
    (∀ r, findImageById st value = some r →
      (∀ x ∈ (handlerTagCreated st nspace repository tag value).records,
        x.name = some (displayName nspace repository tag) → x.uid = r.uid) ∧
      (∃ x ∈ (handlerTagCreated st nspace repository tag value).records,
        x.uid = r.uid ∧ x.name = some (displayName nspace repository tag)) ∧
      countName (handlerTagCreated st nspace repository tag value)
        (displayName nspace repository tag) ≤ 1 ∧
      (handlerTagCreated st nspace repository tag value).records.map
          ImageRecord.properties = st.records.map ImageRecord.properties) := by
  refine ⟨?_, ?_, ?_⟩
  · intro hf
    unfold handlerTagCreated
    rw [hf]
  · by_cases h : nspace = "library" <;> simp [displayName, h]
  · intro r hf
    have hrmem := findImageById_mem st value r hf
    have heq : handlerTagCreated st nspace repository tag value =
        stateUpdate (clearImagesName st (displayName nspace repository tag)) r.uid
          (setNameUpdateArgs (displayName nspace repository tag)) := by
      unfold handlerTagCreated
      rw [hf]
    set dn := displayName nspace repository tag with hdn
    set cf : ImageRecord → ImageRecord := fun x =>
      if x.name = some dn then recordUpdate x clearNameUpdateArgs else x with hcf
    set g : ImageRecord → ImageRecord := fun x =>
      if x.uid = r.uid then recordUpdate x (setNameUpdateArgs dn) else x with hg
    have hrecords : (handlerTagCreated st nspace repository tag value).records =
        st.records.map (fun x => g (cf x)) := by
      rw [heq]
      unfold stateUpdate clearImagesName
      simp [List.map_map, Function.comp]
    have hcfx : ∀ x : ImageRecord,
        cf x = if x.name = some dn then recordUpdate x clearNameUpdateArgs else x :=
      fun _ => rfl
    have hgcf : ∀ y : ImageRecord,
        g y = if y.uid = r.uid then recordUpdate y (setNameUpdateArgs dn) else y :=
      fun _ => rfl
    have hcf_uid : ∀ x : ImageRecord, (cf x).uid = x.uid := by
      intro x
      rw [hcfx x]
      by_cases hn : x.name = some dn
      · rw [if_pos hn, recordUpdate_uid]
      · rw [if_neg hn]
    have hcf_props : ∀ x : ImageRecord, (cf x).properties = x.properties := by
      intro x
      rw [hcfx x]
      by_cases hn : x.name = some dn
      · rw [if_pos hn, clearName_props]
      · rw [if_neg hn]
    have hg_uid : ∀ x : ImageRecord, (g (cf x)).uid = x.uid := by
      intro x
      rw [hgcf (cf x)]
      by_cases hu : (cf x).uid = r.uid
      · rw [if_pos hu, recordUpdate_uid, hcf_uid]
      · rw [if_neg hu, hcf_uid]
    have hpoint : ∀ x : ImageRecord, (g (cf x)).name = some dn → x.uid = r.uid := by
      intro x hx
      by_cases hu : (cf x).uid = r.uid
      · rw [← hcf_uid x]; exact hu
      · rw [hgcf (cf x), if_neg hu, hcfx x] at hx
        by_cases hn : x.name = some dn
        · rw [if_pos hn, clearName_name] at hx
          cases hx
        · rw [if_neg hn] at hx
          exact absurd hx hn
    refine ⟨?_, ?_, ?_, ?_⟩
    · intro x hx hname
      rw [hrecords] at hx
      obtain ⟨y, hy, hyx⟩ := List.mem_map.mp hx
      rw [← hyx] at hname ⊢
      rw [hg_uid y]
      exact hpoint y hname
    · refine ⟨g (cf r), ?_, ?_, ?_⟩
      · rw [hrecords]
        exact List.mem_map_of_mem _ hrmem.1
      · exact hg_uid r
      · rw [hgcf (cf r), if_pos (hcf_uid r)]
        exact setName_name (cf r) dn
    · unfold countName
      rw [hrecords, List.countP_map]
      have hmono : st.records.countP ((fun x => x.name = some dn) ∘ fun x => g (cf x)) ≤
          st.records.countP (fun x => x.uid = r.uid) := by
        refine List.countP_mono_left ?_
        intro x _ hx
        simp only [Function.comp, decide_eq_true_eq] at hx ⊢
        exact hpoint x hx
      exact le_trans hmono (countP_uid_le_one st.records hwf r.uid)
    · rw [hrecords, List.map_map]
      refine List.map_congr_left ?_
      intro x _
      simp only [Function.comp]
      rw [hgcf (cf x)]
      by_cases hu : (cf x).uid = r.uid
      · rw [if_pos hu, setName_props, hcf_props]
      · rw [if_neg hu, hcf_props]

/-- Witness for C3 on a concrete state: a missing image-id is ignored, and
naming a second record evicts the first holder, leaving one holder. -/
theorem tag_created_spec_witness :
    handlerTagCreated stWit "library" "repo" "tag" "missing" = stWit ∧
    countName (handlerTagCreated stWit "library" "repo" "tag" "i1")
      (displayName "library" "repo" "tag") ≤ 1 := by
  constructor
  · exact (tag_created_spec stWit "library" "repo" "tag" "missing"
      (by unfold uidNodup; decide)).1 (by rfl)
  · exact ((tag_created_spec stWit "library" "repo" "tag" "i1"
      (by unfold uidNodup; decide)).2.2 rWit (by rfl)).2.2.1

/-- C10: the single-property persist inside `remove` is the one mutation in
the layer store and tag handlers whose `update` passes no `purge_props` flag,
while `put_content`, `stream_write`, the collision eviction and the rename
all pass `purge_props=False`; under the service's default purge behavior the
properties of a record updated without the flag become exactly the passed
set (fields not included are dropped rather than explicitly preserved),
unlike a merge-flagged update which preserves them. -/
theorem remove_purge_default_spec (r : ImageRecord) (ps : Props)
    (p content n : String) (fp : List Nat)
    (st : GlanceState) (path b c v : String)
    (hsp : pySplitSlash path = [Storage.images, b, c]) (hc : c ≠ "layer")
    (hfr : findImageById st b = some r)
    (hp : propLookup r.properties ("meta_" ++ c) = some v) :
    (removePropUpdateArgs ps).purge_props = none ∧
    (putContentUpdateArgs p content).purge_props = some false ∧
    (streamWriteUpdateArgs fp).purge_props = some false ∧
    clearNameUpdateArgs.purge_props = some false ∧
    (setNameUpdateArgs n).purge_props = some false ∧
    defaultPurgeProps = true ∧
    (recordUpdate r (removePropUpdateArgs ps)).properties = ps ∧
    (recordUpdate r (putContentUpdateArgs p content)).properties =
      propMerge r.properties [(p, content)] ∧
    remove st path =
      Except.ok (stateUpdate st r.uid
        (removePropUpdateArgs (propErase r.properties ("meta_" ++ c)))) := by
  refine ⟨rfl, rfl, rfl, rfl, rfl, rfl, rfl, rfl, ?_⟩
  have hip := initPath_false_eq st path Storage.images b c hsp
  rw [if_pos rfl] at hip
  unfold remove
  rw [hip]
  simp [hc, hfr, hp]

/-- Witness for C10 at a concrete state: the flag is absent on `remove`'s
persist call, and the persisted record carries exactly the remaining set. -/
theorem remove_purge_default_spec_witness :
    (removePropUpdateArgs []).purge_props = none ∧
    remove stWit "images/i1/json" =
      Except.ok (stateUpdate stWit rWit.uid
        (removePropUpdateArgs (propErase rWit.properties ("meta_" ++ "json")))) := by
  have h := remove_purge_default_spec rWit [] "p" "x" "n" [] stWit
    "images/i1/json" "i1" "json" "J" (by decide) (by decide) (by rfl) (by decide)
  exact ⟨h.1, h.2.2.2.2.2.2.2.2⟩

end Glance
